import Mathlib

/- Shallow embedding of src/curve_area_calculator_v2.py over exact rationals.

   Coordinates are modelled as ℚ; Python float arithmetic is idealised as
   exact rational arithmetic.  Random draws (grid jitter offsets, Monte Carlo
   points) are modelled as explicit caller-supplied streams ℕ → ℚ × ℚ.
   Python runtime errors (ZeroDivisionError, ValueError) are modelled as
   explicit error outcomes placed at the program point where Python raises
   them.  Wall-clock fields (computation_time) and plotting are not modelled. -/

/-- Python builtin `min` over a nonempty list, as used on the coordinate lists
in `CurveAreaCalculator.__init__`.  The `[]` case is unreachable on the
translated paths (Python would raise ValueError there). -/
def listMin : List ℚ → ℚ
  | [] => 0
  | x :: xs => xs.foldl min x

/-- Python builtin `max` over a nonempty list. -/
def listMax : List ℚ → ℚ
  | [] => 0
  | x :: xs => xs.foldl max x

/-- `CurveAreaCalculator.__init__`: the calculator owns the ordered vertex
list; the bounding-box fields below are the cached derived attributes. -/
structure Polygon where
  coordinates : List (ℚ × ℚ)
deriving DecidableEq

namespace Polygon

/-- `self.n_points = len(coordinates)`. -/
def n_points (p : Polygon) : ℕ := p.coordinates.length

/-- `self.min_x = min(x_coords)`. -/
def min_x (p : Polygon) : ℚ := listMin (p.coordinates.map Prod.fst)

/-- `self.max_x = max(x_coords)`. -/
def max_x (p : Polygon) : ℚ := listMax (p.coordinates.map Prod.fst)

/-- `self.min_y = min(y_coords)`. -/
def min_y (p : Polygon) : ℚ := listMin (p.coordinates.map Prod.snd)

/-- `self.max_y = max(y_coords)`. -/
def max_y (p : Polygon) : ℚ := listMax (p.coordinates.map Prod.snd)

/-- `self.bbox_width = self.max_x - self.min_x`. -/
def bbox_width (p : Polygon) : ℚ := p.max_x - p.min_x

/-- `self.bbox_height = self.max_y - self.min_y`. -/
def bbox_height (p : Polygon) : ℚ := p.max_y - p.min_y

/-- `self.bbox_area = self.bbox_width * self.bbox_height`. -/
def bbox_area (p : Polygon) : ℚ := p.bbox_width * p.bbox_height

end Polygon

/-- The edge test in `point_in_polygon_ray_casting`:
`((yi > y) != (yj > y)) and (x < (xj - xi) * (y - yi) / (yj - yi) + xi)`.
In ℚ, division by zero yields 0, but the second conjunct is only reachable
when `yi ≠ yj` (mirroring Python's short-circuit `and`, which keeps the
zero-denominator division unevaluated). -/
def edge_crosses (x y xi yi xj yj : ℚ) : Bool :=
  (decide (yi > y) != decide (yj > y)) &&
    decide (x < (xj - xi) * (y - yi) / (yj - yi) + xi)

/-- The `for i in range(self.n_points)` loop of `point_in_polygon_ray_casting`:
the first argument lists the remaining vertices `coordinates[i]`, the second
carries the running predecessor `coordinates[j]`, the third the `inside` flag. -/
def ray_loop (x y : ℚ) : List (ℚ × ℚ) → ℚ × ℚ → Bool → Bool
  | [], _, inside => inside
  | v :: rest, prev, inside =>
      ray_loop x y rest v
        (if edge_crosses x y v.1 v.2 prev.1 prev.2 then !inside else inside)

/-- `CurveAreaCalculator.point_in_polygon_ray_casting(x, y)`: even-odd ray
casting, with `j` initialised to `n_points - 1` (the last vertex) and the
`inside` flag starting `False`. -/
def point_in_polygon_ray_casting (p : Polygon) (x y : ℚ) : Bool :=
  match p.coordinates with
  | [] => false
  | v :: rest =>
      ray_loop x y (v :: rest) ((v :: rest).getLast (List.cons_ne_nil v rest)) false

/-- The accumulation loop of `analytical_area`: adds
`(coordinates[j].x + coordinates[i].x) * (coordinates[j].y - coordinates[i].y)`
for each vertex `i`, carrying the predecessor `coordinates[j]`. -/
def shoelace_loop : List (ℚ × ℚ) → ℚ × ℚ → ℚ
  | [], _ => 0
  | v :: rest, prev => (prev.1 + v.1) * (prev.2 - v.2) + shoelace_loop rest v

/-- `CurveAreaCalculator.analytical_area()`: shoelace formula,
`abs(area) / 2.0`. -/
def analytical_area (p : Polygon) : ℚ :=
  match p.coordinates with
  | [] => 0
  | v :: rest =>
      |shoelace_loop (v :: rest) ((v :: rest).getLast (List.cons_ne_nil v rest))| / 2

/-- The unit-cell sample points built at the top of `grid_method`:
`sample_x = (i + 0.5) / samples_per_side + uniform(-0.1, 0.1) / samples_per_side`
(and likewise for y), for `i`, `j` ranging over `samples_per_side`.  The
`jitter` stream supplies the pair of raw `uniform(-0.1, 0.1)` draws for the
k-th generated sample point (k counted in generation order). -/
def sample_coords (samples_per_side : ℕ) (jitter : ℕ → ℚ × ℚ) : List (ℚ × ℚ) :=
  (List.range samples_per_side).flatMap (fun i =>
    (List.range samples_per_side).map (fun j =>
      (((i : ℚ) + 1 / 2) / (samples_per_side : ℚ) +
          (jitter (i * samples_per_side + j)).1 / (samples_per_side : ℚ),
       ((j : ℚ) + 1 / 2) / (samples_per_side : ℚ) +
          (jitter (i * samples_per_side + j)).2 / (samples_per_side : ℚ))))

/-- The result dictionary returned by `grid_method` (the `computation_time`
entry, wall-clock time, is not modelled). -/
structure GridResult where
  area : ℚ
  method : String
  grid_resolution : ℤ
  samples_per_cell : ℕ
  total_cells : ℕ
deriving DecidableEq

/-- Outcome of running `grid_method`, recording where Python would raise:
`errBeforeLoop` models the `ZeroDivisionError` at the `cell_width` computation
(`grid_resolution == 0`) and the `ValueError` from `int(np.sqrt(negative))`
(`samples_per_cell < 0`), both raised before the cell loop; `errInLoop k`
models the `ZeroDivisionError` at
`cell_fraction = inside_count / len(sample_coords)` raised during cell
iteration number `k` (counting iterations entered, starting at 1). -/
inductive GridOutcome where
  | ok (r : GridResult)
  | errBeforeLoop
  | errInLoop (cellsEntered : ℕ)
deriving DecidableEq

/-- The inner sampling loop of one cell iteration of `grid_method`: the number
of unit-cell sample points that, mapped into the cell anchored at
`(min_x + i * cell_width, min_y + j * cell_height)`, are classified inside. -/
def cell_inside_count (p : Polygon) (cell_width cell_height : ℚ)
    (coords : List (ℚ × ℚ)) (cell : ℕ × ℕ) : ℕ :=
  coords.countP (fun s =>
    point_in_polygon_ray_casting p
      (p.min_x + (cell.1 : ℚ) * cell_width + s.1 * cell_width)
      (p.min_y + (cell.2 : ℚ) * cell_height + s.2 * cell_height))

/-- The body of one cell iteration of `grid_method`: count the sample points
inside the polygon and return `cell_fraction * cell_area`, or `none` for the
`ZeroDivisionError` when `sample_coords` is empty. -/
def cell_step (p : Polygon) (cell_width cell_height cell_area : ℚ)
    (coords : List (ℚ × ℚ)) (cell : ℕ × ℕ) : Option ℚ :=
  if coords.length = 0 then none
  else some ((cell_inside_count p cell_width cell_height coords cell : ℚ) /
    (coords.length : ℚ) * cell_area)

/-- The iteration space of the double cell loop of `grid_method`:
`for i in range(grid_resolution): for j in range(grid_resolution)`. -/
def grid_cells (r : ℕ) : List (ℕ × ℕ) :=
  (List.range r).flatMap (fun i => (List.range r).map (fun j => (i, j)))

/-- The double cell loop of `grid_method`, threading `total_area` and
`cells_processed`; a `none` from the body aborts with the number of the cell
iteration in which Python raises. -/
def process_cells (f : ℕ × ℕ → Option ℚ) :
    List (ℕ × ℕ) → ℚ → ℕ → Except ℕ (ℚ × ℕ)
  | [], total_area, cells_processed => .ok (total_area, cells_processed)
  | c :: rest, total_area, cells_processed =>
      match f c with
      | none => .error (cells_processed + 1)
      | some v => process_cells f rest (total_area + v) (cells_processed + 1)

/-- `CurveAreaCalculator.grid_method(grid_resolution, samples_per_cell)`.
`samples_per_side = int(np.sqrt(samples_per_cell))` is modelled by `Nat.sqrt`
on the nonnegative range; the cell loop runs over
`range(grid_resolution) × range(grid_resolution)` with `i` outer, `j` inner. -/
def grid_method (p : Polygon) (grid_resolution samples_per_cell : ℤ)
    (jitter : ℕ → ℚ × ℚ) : GridOutcome :=
  if grid_resolution = 0 then .errBeforeLoop
  else if samples_per_cell < 0 then .errBeforeLoop
  else
    let cell_width := p.bbox_width / (grid_resolution : ℚ)
    let cell_height := p.bbox_height / (grid_resolution : ℚ)
    let cell_area := cell_width * cell_height
    let samples_per_side := Nat.sqrt samples_per_cell.toNat
    let coords := sample_coords samples_per_side jitter
    let cells := grid_cells grid_resolution.toNat
    match process_cells (cell_step p cell_width cell_height cell_area coords) cells 0 0 with
    | .error k => .errInLoop k
    | .ok (total_area, cells_processed) =>
        .ok { area := total_area
              method := "Intelligent Grid Sampling"
              grid_resolution := grid_resolution
              samples_per_cell := coords.length
              total_cells := cells_processed }

/-- The result dictionary returned by `monte_carlo_method` (again without the
wall-clock `computation_time` entry). -/
structure MCResult where
  area : ℚ
  method : String
  n_samples : ℤ
  inside_count : ℕ
  fraction_inside : ℚ
  bounding_box_area : ℚ
deriving DecidableEq

/-- Outcome of `monte_carlo_method`: `errAfterLoop` models the
`ZeroDivisionError` at `fraction_inside = inside_count / n_samples`, raised
after the sampling loop when `n_samples == 0`. -/
inductive MCOutcome where
  | ok (r : MCResult)
  | errAfterLoop
deriving DecidableEq

/-- `CurveAreaCalculator.monte_carlo_method(n_samples)`.  The `rng` stream
supplies the k-th drawn point `(uniform(min_x, max_x), uniform(min_y, max_y))`. -/
def monte_carlo_method (p : Polygon) (n_samples : ℤ) (rng : ℕ → ℚ × ℚ) : MCOutcome :=
  let inside_count := (List.range n_samples.toNat).countP (fun k =>
    point_in_polygon_ray_casting p (rng k).1 (rng k).2)
  if n_samples = 0 then .errAfterLoop
  else
    let fraction_inside : ℚ := (inside_count : ℚ) / (n_samples : ℚ)
    .ok { area := fraction_inside * p.bbox_area
          method := "Monte Carlo Simulation"
          n_samples := n_samples
          inside_count := inside_count
          fraction_inside := fraction_inside
          bounding_box_area := p.bbox_area }

/-- The numeric core of `CurveAreaCalculator.compare_methods`: the exact area,
both estimates, and the two relative-error percentages
`abs(estimate - true_area) / true_area * 100`.  `none` models an uncaught
exception reaching the caller: an error inside either sampling method, or the
`ZeroDivisionError` at the `grid_error` computation when the exact area is
zero (that division is evaluated before `monte_carlo_method` is invoked). -/
def compare_methods (p : Polygon) (grid_resolution samples_per_cell monte_carlo_samples : ℤ)
    (jitter rng : ℕ → ℚ × ℚ) : Option (ℚ × ℚ × ℚ × ℚ × ℚ) :=
  let true_area := analytical_area p
  match grid_method p grid_resolution samples_per_cell jitter with
  | .errBeforeLoop => none
  | .errInLoop _ => none
  | .ok g =>
      if true_area = 0 then none
      else
        let grid_error := |g.area - true_area| / true_area * 100
        match monte_carlo_method p monte_carlo_samples rng with
        | .errAfterLoop => none
        | .ok m =>
            let mc_error := |m.area - true_area| / true_area * 100
            some (true_area, g.area, grid_error, m.area, mc_error)

/-- Whether a grid run returned normally (no Python exception). -/
def GridOutcome.isOk : GridOutcome → Bool
  | .ok _ => true
  | _ => false

/-- The `'area'` entry of a normally returned grid dictionary (0 otherwise). -/
def GridOutcome.area : GridOutcome → ℚ
  | .ok r => r.area
  | _ => 0

/-- The `'samples_per_cell'` entry of a normally returned grid dictionary. -/
def GridOutcome.samples_per_cell : GridOutcome → ℕ
  | .ok r => r.samples_per_cell
  | _ => 0

/-- The `'total_cells'` entry of a normally returned grid dictionary. -/
def GridOutcome.total_cells : GridOutcome → ℕ
  | .ok r => r.total_cells
  | _ => 0

/-- Whether a Monte Carlo run returned normally. -/
def MCOutcome.isOk : MCOutcome → Bool
  | .ok _ => true
  | _ => false

/-- The `'area'` entry of a normally returned Monte Carlo dictionary. -/
def MCOutcome.area : MCOutcome → ℚ
  | .ok r => r.area
  | _ => 0

/-- The `'inside_count'` entry of a normally returned Monte Carlo dictionary. -/
def MCOutcome.inside_count : MCOutcome → ℕ
  | .ok r => r.inside_count
  | _ => 0

/-- The `'fraction_inside'` entry of a normally returned Monte Carlo dictionary. -/
def MCOutcome.fraction_inside : MCOutcome → ℚ
  | .ok r => r.fraction_inside
  | _ => 0

/-- The `'bounding_box_area'` entry of a normally returned Monte Carlo dictionary. -/
def MCOutcome.bounding_box_area : MCOutcome → ℚ
  | .ok r => r.bounding_box_area
  | _ => 0

/-- The `'n_samples'` entry of a normally returned Monte Carlo dictionary. -/
def MCOutcome.n_samples : MCOutcome → ℤ
  | .ok r => r.n_samples
  | _ => 0

/- Specification-side formulations (from the spec's words, for the refinement
claims): the cyclic-adjacent vertex pairs `(vertex[i], vertex[j])` with `j`
the cyclic predecessor of `i`, and the shoelace sum / ray-casting fold stated
over them. -/

/-- All cyclic-adjacent vertex pairs `(current, predecessor)`: pairing each
vertex with its cyclic predecessor (rotating the list right by one). -/
def cyclicPairs (l : List (ℚ × ℚ)) : List ((ℚ × ℚ) × (ℚ × ℚ)) :=
  l.zip (l.rotate (l.length - 1))

/-- The spec's shoelace sum: `Σ (x[j] + x[i]) * (y[j] - y[i])` over all
cyclic-adjacent pairs `(i, j)`, `j` the predecessor of `i`. -/
def spec_shoelace_sum (l : List (ℚ × ℚ)) : ℚ :=
  ((cyclicPairs l).map (fun e => (e.2.1 + e.1.1) * (e.2.2 - e.1.2))).sum

/-- The spec's crossing condition for one cyclic-adjacent pair
`e = (vertex[i], vertex[j])`: `(yi > y) != (yj > y)` and
`x < (xj - xi) * (y - yi) / (yj - yi) + xi`. -/
def crossing_test (x y : ℚ) (e : (ℚ × ℚ) × (ℚ × ℚ)) : Bool :=
  (decide (e.1.2 > y) != decide (e.2.2 > y)) &&
    decide (x < (e.2.1 - e.1.1) * (y - e.1.2) / (e.2.2 - e.1.2) + e.1.1)

/-- The spec's ray-casting description: walk every edge `(vertex[j], vertex[i])`
of the implicitly closed polygon, toggle an inside flag (starting false)
exactly when the crossing condition holds; the final flag is the result. -/
def spec_point_in_polygon (l : List (ℚ × ℚ)) (x y : ℚ) : Bool :=
  (cyclicPairs l).foldl (fun inside e =>
    if crossing_test x y e then !inside else inside) false

/- Bridging lemmas: the predecessor-carrying loops of the source against the
cyclic-pair list used by the specification-side formulations. -/

/-- Dropping all but the last element of a nonempty list leaves its last
element. -/
theorem drop_length_sub_one_eq {α : Type*} : ∀ (l : List α) (h : l ≠ []),
    l.drop (l.length - 1) = [l.getLast h]
  | [], h => absurd rfl h
  | [_], _ => rfl
  | a :: b :: t, _ => by
      have ih := drop_length_sub_one_eq (b :: t) (List.cons_ne_nil b t)
      rw [List.getLast_cons (List.cons_ne_nil b t)]
      simpa using ih

/-- Rotating a nonempty list one step to the right (left-rotating by
`length - 1`) moves the last element to the front. -/
theorem rotate_length_sub_one {α : Type*} (l : List α) (h : l ≠ []) :
    l.rotate (l.length - 1) = l.getLast h :: l.dropLast := by
  rw [List.rotate_eq_drop_append_take (Nat.sub_le _ _), drop_length_sub_one_eq l h,
    ← List.dropLast_eq_take]
  rfl

/-- The shoelace accumulation loop equals the shoelace sum over the list of
(current, predecessor) pairs seeded with an arbitrary initial predecessor. -/
theorem shoelace_loop_eq_sum : ∀ (l : List (ℚ × ℚ)) (prev : ℚ × ℚ),
    shoelace_loop l prev =
      ((l.zip (prev :: l.dropLast)).map
        (fun e => (e.2.1 + e.1.1) * (e.2.2 - e.1.2))).sum
  | [], _ => by simp [shoelace_loop]
  | v :: rest, prev => by
      have ih := shoelace_loop_eq_sum rest v
      cases rest with
      | nil => simp [shoelace_loop]
      | cons r rs =>
          rw [shoelace_loop, ih]
          simp

/-- `analytical_area` computes `0.5 * |Σ (x[j] + x[i]) * (y[j] - y[i])|` over
all cyclic-adjacent vertex pairs. -/
theorem analytical_area_eq_spec (l : List (ℚ × ℚ)) (h : l ≠ []) :
    analytical_area ⟨l⟩ = 1 / 2 * |spec_shoelace_sum l| := by
  cases l with
  | nil => exact absurd rfl h
  | cons v rest =>
      have hr := rotate_length_sub_one (v :: rest) (List.cons_ne_nil v rest)
      simp only [analytical_area, spec_shoelace_sum, cyclicPairs, hr,
        ← shoelace_loop_eq_sum]
      ring

/-- The ray-casting loop equals a toggle fold over the list of
(current, predecessor) pairs seeded with an arbitrary initial predecessor. -/
theorem ray_loop_eq_foldl (x y : ℚ) : ∀ (l : List (ℚ × ℚ)) (prev : ℚ × ℚ) (b : Bool),
    ray_loop x y l prev b =
      (l.zip (prev :: l.dropLast)).foldl
        (fun inside e => if crossing_test x y e then !inside else inside) b
  | [], _, b => by simp [ray_loop]
  | v :: rest, prev, b => by
      have ih := ray_loop_eq_foldl x y rest v
      cases rest with
      | nil => simp [ray_loop, edge_crosses, crossing_test]
      | cons r rs =>
          rw [ray_loop, ih]
          simp [edge_crosses, crossing_test]

/-- The source ray-casting predicate coincides with the spec's edge-walk
formulation over cyclic-adjacent pairs. -/
theorem point_in_polygon_eq_spec (l : List (ℚ × ℚ)) (x y : ℚ) :
    point_in_polygon_ray_casting ⟨l⟩ x y = spec_point_in_polygon l x y := by
  cases l with
  | nil => rfl
  | cons v rest =>
      have hr := rotate_length_sub_one (v :: rest) (List.cons_ne_nil v rest)
      simp only [point_in_polygon_ray_casting, spec_point_in_polygon, cyclicPairs, hr,
        ← ray_loop_eq_foldl]

/-- Exchanging a negation between the accumulator and the second argument of
`xor`. -/
theorem xor_not_comm (a t : Bool) : xor (!a) t = xor a !t := by cases a <;> cases t <;> rfl

/-- A toggle fold counts parity: toggling on each element satisfying `C`
flips the flag once per such element. -/
theorem foldl_toggle {α : Type*} (C : α → Bool) : ∀ (l : List α) (b : Bool),
    l.foldl (fun inside e => if C e then !inside else inside) b
      = xor b (decide (l.countP C % 2 = 1))
  | [], b => by simp
  | a :: l, b => by
      have ih := foldl_toggle C l
      simp only [List.foldl_cons, List.countP_cons]
      by_cases hC : C a
      · rw [if_pos hC, if_pos hC, ih]
        have h2 : ((l.countP C + 1) % 2 = 1) ↔ ¬(l.countP C % 2 = 1) := by omega
        rw [decide_eq_decide.mpr h2, decide_not, xor_not_comm]
      · rw [if_neg hC, if_neg hC, Nat.add_zero, ih]

/-- The spec's ray-casting fold returns whether the number of crossing edges
is odd. -/
theorem spec_point_in_polygon_parity (l : List (ℚ × ℚ)) (x y : ℚ) :
    spec_point_in_polygon l x y
      = decide ((cyclicPairs l).countP (crossing_test x y) % 2 = 1) := by
  rw [spec_point_in_polygon, foldl_toggle]
  simp

/-- Cyclic-adjacent pairs of a rotated vertex list are the rotation of the
cyclic-adjacent pairs of the original list. -/
theorem cyclicPairs_rotate (l : List (ℚ × ℚ)) (k : ℕ) :
    cyclicPairs (l.rotate k) = (cyclicPairs l).rotate k := by
  unfold cyclicPairs
  rw [List.length_rotate, List.rotate_rotate, Nat.add_comm, ← List.rotate_rotate]
  exact (List.zipWith_rotate_distrib Prod.mk l (l.rotate (l.length - 1)) k
    (List.length_rotate l _).symm).symm

/-- Ray-casting classification is invariant under cyclic rotation of the
vertex list: the rotated list has the same cyclic-adjacent pairs up to
permutation, and the result depends only on the parity of the number of
crossing pairs. -/
theorem point_in_polygon_rotate (l : List (ℚ × ℚ)) (k : ℕ) (x y : ℚ) :
    point_in_polygon_ray_casting ⟨l.rotate k⟩ x y
      = point_in_polygon_ray_casting ⟨l⟩ x y := by
  rw [point_in_polygon_eq_spec, point_in_polygon_eq_spec,
    spec_point_in_polygon_parity, spec_point_in_polygon_parity,
    cyclicPairs_rotate, (List.rotate_perm (cyclicPairs l) k).countP_eq]

/- Bounding-box facts. -/

/-- Folding `min` never increases the accumulator. -/
theorem foldl_min_le : ∀ (xs : List ℚ) (a : ℚ), xs.foldl min a ≤ a
  | [], a => le_refl a
  | x :: xs, a => le_trans (foldl_min_le xs (min a x)) (min_le_left a x)

/-- Folding `max` never decreases the accumulator. -/
theorem le_foldl_max : ∀ (xs : List ℚ) (a : ℚ), a ≤ xs.foldl max a
  | [], a => le_refl a
  | x :: xs, a => le_trans (le_max_left a x) (le_foldl_max xs (max a x))

/-- On a nonempty list the minimum is at most the maximum. -/
theorem listMin_le_listMax (l : List ℚ) (h : l ≠ []) : listMin l ≤ listMax l := by
  cases l with
  | nil => exact absurd rfl h
  | cons x xs => exact le_trans (foldl_min_le xs x) (le_foldl_max xs x)

/-- The bounding box of a polygon with at least one vertex has nonnegative
width. -/
theorem bbox_width_nonneg (p : Polygon) (h : p.coordinates ≠ []) :
    0 ≤ p.bbox_width := by
  have hm : p.coordinates.map Prod.fst ≠ [] := by simpa using h
  exact sub_nonneg.mpr (listMin_le_listMax _ hm)

/-- The bounding box of a polygon with at least one vertex has nonnegative
height. -/
theorem bbox_height_nonneg (p : Polygon) (h : p.coordinates ≠ []) :
    0 ≤ p.bbox_height := by
  have hm : p.coordinates.map Prod.snd ≠ [] := by simpa using h
  exact sub_nonneg.mpr (listMin_le_listMax _ hm)

/-- The bounding-box area of a polygon with at least one vertex is
nonnegative. -/
theorem bbox_area_nonneg (p : Polygon) (h : p.coordinates ≠ []) :
    0 ≤ p.bbox_area :=
  mul_nonneg (bbox_width_nonneg p h) (bbox_height_nonneg p h)

/- Sum bounds. -/

/-- A list of nonnegative rationals has nonnegative sum. -/
theorem sum_nonneg_of_mem : ∀ (l : List ℚ), (∀ x ∈ l, 0 ≤ x) → 0 ≤ l.sum
  | [], _ => le_refl 0
  | x :: xs, h => by
      simp only [List.sum_cons]
      exact add_nonneg (h x (by simp))
        (sum_nonneg_of_mem xs (fun y hy => h y (by simp [hy])))

/-- A list of rationals bounded by `B` has sum bounded by `length * B`. -/
theorem sum_le_length_mul (B : ℚ) : ∀ (l : List ℚ),
    (∀ x ∈ l, x ≤ B) → l.sum ≤ (l.length : ℚ) * B
  | [], _ => by simp
  | x :: xs, h => by
      have hx := h x (by simp)
      have hxs := sum_le_length_mul B xs (fun y hy => h y (by simp [hy]))
      simp only [List.sum_cons, List.length_cons]
      push_cast
      linarith

/- Loop-shape facts for `grid_method` and `monte_carlo_method`. -/

/-- The cell loop visits `r * r` cells. -/
theorem grid_cells_length (r : ℕ) : (grid_cells r).length = r * r := by
  simp [grid_cells, List.length_flatMap, Function.comp_def, List.map_const']

/-- The jittered unit-cell sample set has `samples_per_side ^ 2` points. -/
theorem sample_coords_length (s : ℕ) (jitter : ℕ → ℚ × ℚ) :
    (sample_coords s jitter).length = s * s := by
  simp [sample_coords, List.length_flatMap, Function.comp_def, List.map_const']

/-- When the per-cell body never raises, the cell loop is a pure fold: it
returns the accumulated total plus the sum of all contributions, and counts
every cell. -/
theorem process_cells_ok (f : ℕ × ℕ → Option ℚ) (g : ℕ × ℕ → ℚ)
    (hf : ∀ c, f c = some (g c)) :
    ∀ (cells : List (ℕ × ℕ)) (t : ℚ) (k : ℕ),
      process_cells f cells t k = .ok (t + (cells.map g).sum, k + cells.length)
  | [], t, k => by simp [process_cells]
  | c :: rest, t, k => by
      simp only [process_cells, hf c]
      rw [process_cells_ok f g hf rest (t + g c) (k + 1)]
      simp only [List.map_cons, List.sum_cons, List.length_cons]
      rw [add_assoc]
      congr 2
      omega

/-- When the per-cell body always raises, the cell loop aborts in its first
iteration. -/
theorem process_cells_err (f : ℕ × ℕ → Option ℚ) (hf : ∀ c, f c = none)
    (cells : List (ℕ × ℕ)) (hc : cells ≠ []) (t : ℚ) (k : ℕ) :
    process_cells f cells t k = .error (k + 1) := by
  cases cells with
  | nil => exact absurd rfl hc
  | cons c rest => rw [process_cells, hf c]

/-- On a nonempty sample set the cell body returns the cell's contribution. -/
theorem cell_step_eq (p : Polygon) (cw ch ca : ℚ) (coords : List (ℚ × ℚ))
    (hne : coords.length ≠ 0) (c : ℕ × ℕ) :
    cell_step p cw ch ca coords c
      = some ((cell_inside_count p cw ch coords c : ℚ) / (coords.length : ℚ) * ca) := by
  simp [cell_step, hne]

/-- With a positive resolution and a requested per-cell sample count of at
least 1, `grid_method` returns normally, reporting the truncated actual
sample count and the full cell count, and accumulating the per-cell
contributions. -/
theorem grid_method_ok (p : Polygon) (res s : ℤ) (jitter : ℕ → ℚ × ℚ)
    (hres : 1 ≤ res) (hs : 1 ≤ s) :
    grid_method p res s jitter = GridOutcome.ok
      { area := ((grid_cells res.toNat).map (fun c =>
            (cell_inside_count p (p.bbox_width / (res : ℚ)) (p.bbox_height / (res : ℚ))
                (sample_coords (Nat.sqrt s.toNat) jitter) c : ℚ) /
              ((sample_coords (Nat.sqrt s.toNat) jitter).length : ℚ) *
              (p.bbox_width / (res : ℚ) * (p.bbox_height / (res : ℚ))))).sum
        method := "Intelligent Grid Sampling"
        grid_resolution := res
        samples_per_cell := Nat.sqrt s.toNat * Nat.sqrt s.toNat
        total_cells := res.toNat * res.toNat } := by
  have hres0 : ¬(res = 0) := by omega
  have hs0 : ¬(s < 0) := by omega
  have hlen : (sample_coords (Nat.sqrt s.toNat) jitter).length ≠ 0 := by
    rw [sample_coords_length]
    have hpos : 0 < Nat.sqrt s.toNat := Nat.sqrt_pos.mpr (by omega)
    exact Nat.mul_ne_zero (by omega) (by omega)
  simp only [grid_method, if_neg hres0, if_neg hs0]
  rw [process_cells_ok _ _ (cell_step_eq p _ _ _ _ hlen)]
  simp [sample_coords_length, grid_cells_length]

/-- With a nonzero sample count, `monte_carlo_method` returns normally with
the inside count of the drawn points and the scaled inside fraction. -/
theorem monte_carlo_method_ok (p : Polygon) (n : ℤ) (rng : ℕ → ℚ × ℚ)
    (hn : n ≠ 0) :
    monte_carlo_method p n rng = MCOutcome.ok
      { area := ((List.range n.toNat).countP (fun k =>
            point_in_polygon_ray_casting p (rng k).1 (rng k).2) : ℚ) / (n : ℚ) *
            p.bbox_area
        method := "Monte Carlo Simulation"
        n_samples := n
        inside_count := (List.range n.toNat).countP (fun k =>
            point_in_polygon_ray_casting p (rng k).1 (rng k).2)
        fraction_inside := ((List.range n.toNat).countP (fun k =>
            point_in_polygon_ray_casting p (rng k).1 (rng k).2) : ℚ) / (n : ℚ)
        bounding_box_area := p.bbox_area } := by
  simp [monte_carlo_method, hn]

/-- `grid_resolution == 0` raises (ZeroDivisionError at `cell_width`) before
the cell loop. -/
theorem grid_method_res_zero (p : Polygon) (s : ℤ) (jitter : ℕ → ℚ × ℚ) :
    grid_method p 0 s jitter = GridOutcome.errBeforeLoop := by
  simp [grid_method]

/-- A negative `samples_per_cell` raises (ValueError at `int(np.sqrt(...))`)
before the cell loop. -/
theorem grid_method_neg_samples (p : Polygon) (res s : ℤ) (jitter : ℕ → ℚ × ℚ)
    (hs : s < 0) : grid_method p res s jitter = GridOutcome.errBeforeLoop := by
  by_cases hres : res = 0
  · simp [grid_method, hres]
  · simp [grid_method, hres, hs]

/-- `samples_per_cell == 0` with a positive resolution raises
(ZeroDivisionError at `cell_fraction`) inside the first cell iteration —
after the cell loop has started. -/
theorem grid_method_zero_samples (p : Polygon) (res : ℤ) (jitter : ℕ → ℚ × ℚ)
    (hres : 1 ≤ res) : grid_method p res 0 jitter = GridOutcome.errInLoop 1 := by
  have hres0 : ¬(res = 0) := by omega
  have hcells : grid_cells res.toNat ≠ [] := by
    intro hnil
    have := grid_cells_length res.toNat
    rw [hnil] at this
    simp at this
    omega
  simp only [grid_method, if_neg hres0, if_neg (by omega : ¬((0:ℤ) < 0))]
  rw [process_cells_err _ (fun c => by simp [cell_step, sample_coords]) _ hcells]

/-- A negative `grid_resolution` is not rejected at all: `range(negative)` is
empty, so the loop body never runs and a normal result is returned. -/
theorem grid_method_neg_res (p : Polygon) (res s : ℤ) (jitter : ℕ → ℚ × ℚ)
    (hres : res < 0) (hs : 0 ≤ s) :
    (grid_method p res s jitter).isOk = true := by
  have hres0 : ¬(res = 0) := by omega
  have hcells : grid_cells res.toNat = [] := by
    have : res.toNat = 0 := by omega
    simp [grid_cells, this]
  simp only [grid_method, if_neg hres0, if_neg (by omega : ¬(s < 0)), hcells]
  simp [process_cells, GridOutcome.isOk]

/-- `n_samples == 0` raises (ZeroDivisionError at `fraction_inside`) after the
sampling loop. -/
theorem monte_carlo_method_zero (p : Polygon) (rng : ℕ → ℚ × ℚ) :
    monte_carlo_method p 0 rng = MCOutcome.errAfterLoop := by
  simp [monte_carlo_method]

/-- With a degenerate bounding box every cell has zero area, so the grid
estimate is zero. -/
theorem grid_method_degenerate (p : Polygon) (res s : ℤ) (jitter : ℕ → ℚ × ℚ)
    (hdeg : p.bbox_width = 0 ∨ p.bbox_height = 0)
    (hres : 1 ≤ res) (hs : 1 ≤ s) :
    (grid_method p res s jitter).area = 0 := by
  rw [grid_method_ok p res s jitter hres hs]
  have hca : p.bbox_width / (res : ℚ) * (p.bbox_height / (res : ℚ)) = 0 := by
    rcases hdeg with h | h <;> simp [h]
  simp [GridOutcome.area, hca, List.map_const']

/-- With a degenerate bounding box the Monte Carlo estimate is zero. -/
theorem monte_carlo_method_degenerate (p : Polygon) (n : ℤ) (rng : ℕ → ℚ × ℚ)
    (hdeg : p.bbox_width = 0 ∨ p.bbox_height = 0) (hn : n ≠ 0) :
    (monte_carlo_method p n rng).area = 0 := by
  rw [monte_carlo_method_ok p n rng hn]
  have hba : p.bbox_area = 0 := by
    rcases hdeg with h | h <;> simp [Polygon.bbox_area, h]
  simp [MCOutcome.area, hba]

/-- Claim C1: for every polygon with at least 3 vertices, `analytical_area`
returns `0.5 * |Σ (x[j] + x[i]) * (y[j] - y[i])|` summed over all
cyclic-adjacent vertex pairs (j the predecessor of i); the result is always
nonnegative, and for the unit right triangle `(0,0),(1,0),(0,1)` it equals
exactly `1/2`. -/
theorem claim_C1_analytical_area (coords : List (ℚ × ℚ)) (h : 3 ≤ coords.length) :
    analytical_area ⟨coords⟩ = 1 / 2 * |spec_shoelace_sum coords| ∧
    0 ≤ analytical_area ⟨coords⟩ ∧
    analytical_area ⟨[((0:ℚ), (0:ℚ)), (1, 0), (0, 1)]⟩ = 1 / 2 := by
  have hne : coords ≠ [] := by
    intro hn
    rw [hn] at h
    simp at h
  refine ⟨analytical_area_eq_spec coords hne, ?_, ?_⟩
  · rw [analytical_area_eq_spec coords hne]
    positivity
  · norm_num [analytical_area, shoelace_loop, List.getLast]

/-- Witness for C1 at the unit right triangle. -/
theorem claim_C1_witness :
    3 ≤ ([((0:ℚ), (0:ℚ)), (1, 0), (0, 1)] : List (ℚ × ℚ)).length ∧
    analytical_area ⟨[((0:ℚ), (0:ℚ)), (1, 0), (0, 1)]⟩
      = 1 / 2 * |spec_shoelace_sum [((0:ℚ), (0:ℚ)), (1, 0), (0, 1)]| :=
  ⟨by decide, (claim_C1_analytical_area [((0:ℚ), (0:ℚ)), (1, 0), (0, 1)] (by decide)).1⟩

/-- Claim C2: for every polygon and query point, `point_in_polygon_ray_casting`
returns the even-odd ray-casting result: a fold over all edges
`(vertex[j], vertex[i])` of the implicitly closed polygon (j the cyclic
predecessor of i) that toggles an inside flag, starting false, exactly when
`(yi > y) != (yj > y)` and `x < (xj - xi) * (y - yi) / (yj - yi) + xi`; the
final flag is the returned value. -/
theorem claim_C2_ray_casting (coords : List (ℚ × ℚ)) (x y : ℚ) :
    point_in_polygon_ray_casting ⟨coords⟩ x y = spec_point_in_polygon coords x y :=
  point_in_polygon_eq_spec coords x y

/-- Claim C3: for every polygon and `n_samples ≥ 1`, `monte_carlo_method`
returns normally with estimate `(inside_count / n_samples) * bbox_area`,
where `inside_count` counts the drawn points classified inside by the
inclusion predicate, and the record carries the inside count, the fraction
inside, the bounding-box area, and the sample count. -/
theorem claim_C3_monte_carlo (p : Polygon) (n : ℤ) (rng : ℕ → ℚ × ℚ)
    (hn : 1 ≤ n) :
    (monte_carlo_method p n rng).isOk = true ∧
    (monte_carlo_method p n rng).inside_count
      = (List.range n.toNat).countP (fun k =>
          point_in_polygon_ray_casting p (rng k).1 (rng k).2) ∧
    (monte_carlo_method p n rng).area
      = ((monte_carlo_method p n rng).inside_count : ℚ) / (n : ℚ) * p.bbox_area ∧
    (monte_carlo_method p n rng).fraction_inside
      = ((monte_carlo_method p n rng).inside_count : ℚ) / (n : ℚ) ∧
    (monte_carlo_method p n rng).bounding_box_area = p.bbox_area ∧
    (monte_carlo_method p n rng).n_samples = n := by
  rw [monte_carlo_method_ok p n rng (by omega)]
  simp [MCOutcome.isOk, MCOutcome.inside_count, MCOutcome.area,
    MCOutcome.fraction_inside, MCOutcome.bounding_box_area, MCOutcome.n_samples]

/-- Witness for C3: triangle `(0,0),(4,0),(2,3)` with one sample drawn at
`(2, 3/2)`. -/
theorem claim_C3_witness :
    (1:ℤ) ≤ 1 ∧
    (monte_carlo_method ⟨[((0:ℚ), (0:ℚ)), (4, 0), (2, 3)]⟩ 1
      (fun _ => (2, 3/2))).isOk = true :=
  ⟨le_refl 1,
    (claim_C3_monte_carlo ⟨[((0:ℚ), (0:ℚ)), (4, 0), (2, 3)]⟩ 1
      (fun _ => (2, 3/2)) (le_refl 1)).1⟩

/-- Claim C4: for every polygon, `grid_resolution ≥ 1` and
`samples_per_cell ≥ 1`, `grid_method` uses an actual per-cell sample count of
`floor(sqrt(samples_per_cell))²` (possibly different from the request), the
diagnostics report exactly that truncated count, and the reported total cell
count is `grid_resolution²`. -/
theorem claim_C4_grid_truncation (p : Polygon) (res s : ℤ) (jitter : ℕ → ℚ × ℚ)
    (hres : 1 ≤ res) (hs : 1 ≤ s) :
    (grid_method p res s jitter).isOk = true ∧
    (grid_method p res s jitter).samples_per_cell
      = Nat.sqrt s.toNat * Nat.sqrt s.toNat ∧
    (grid_method p res s jitter).total_cells = res.toNat * res.toNat := by
  rw [grid_method_ok p res s jitter hres hs]
  simp [GridOutcome.isOk, GridOutcome.samples_per_cell, GridOutcome.total_cells]

/-- Witness for C4: requested 5 samples per cell are truncated to 4 (= 2²) on
a 2×2 grid. -/
theorem claim_C4_witness :
    ((1:ℤ) ≤ 2 ∧ (1:ℤ) ≤ 5) ∧
    (grid_method ⟨[((0:ℚ), (0:ℚ)), (4, 0), (2, 3)]⟩ 2 5 (fun _ => (0, 0))).samples_per_cell
      = Nat.sqrt (5:ℤ).toNat * Nat.sqrt (5:ℤ).toNat :=
  ⟨⟨by omega, by omega⟩,
    (claim_C4_grid_truncation ⟨[((0:ℚ), (0:ℚ)), (4, 0), (2, 3)]⟩ 2 5
      (fun _ => (0, 0)) (by omega) (by omega)).2.1⟩

/-- Counterexample to C5 as stated: a negative `grid_resolution` (≤ 0, hence
invalid per the claim) is not rejected at all — `grid_method` returns
normally — and `samples_per_cell == 0` raises inside the first cell
iteration of the sampling loop, not before it. -/
theorem claim_C5_counterexample :
    (grid_method ⟨[((0:ℚ), (0:ℚ)), (4, 0), (2, 3)]⟩ (-1) 16 (fun _ => (0, 0))).isOk
      = true ∧
    grid_method ⟨[((0:ℚ), (0:ℚ)), (4, 0), (2, 3)]⟩ 1 0 (fun _ => (0, 0))
      = GridOutcome.errInLoop 1 :=
  ⟨grid_method_neg_res ⟨[((0:ℚ), (0:ℚ)), (4, 0), (2, 3)]⟩ (-1) 16 (fun _ => (0, 0))
      (by omega) (by omega),
   grid_method_zero_samples ⟨[((0:ℚ), (0:ℚ)), (4, 0), (2, 3)]⟩ 1 (fun _ => (0, 0))
      (by omega)⟩

/-- Claim C5 (amended): the source performs no parameter validation.
`grid_resolution == 0` and negative `samples_per_cell` raise before the cell
loop (division-by-zero / NaN conversion), `samples_per_cell == 0` raises
inside the first cell iteration, a negative `grid_resolution` is silently
accepted (the loop body never runs and a normal result is returned), and
`n_samples == 0` raises after the sampling loop. -/
theorem claim_C5_amended (p : Polygon) (jitter rng : ℕ → ℚ × ℚ)
    (s negs res negres : ℤ) (hnegs : negs < 0) (hres : 1 ≤ res)
    (hnegres : negres < 0) (hs : 0 ≤ s) :
    grid_method p 0 s jitter = GridOutcome.errBeforeLoop ∧
    grid_method p res negs jitter = GridOutcome.errBeforeLoop ∧
    grid_method p res 0 jitter = GridOutcome.errInLoop 1 ∧
    (grid_method p negres s jitter).isOk = true ∧
    monte_carlo_method p 0 rng = MCOutcome.errAfterLoop :=
  ⟨grid_method_res_zero p s jitter,
   grid_method_neg_samples p res negs jitter hnegs,
   grid_method_zero_samples p res jitter hres,
   grid_method_neg_res p negres s jitter hnegres hs,
   monte_carlo_method_zero p rng⟩

/-- Witness for the amended C5 at concrete parameters. -/
theorem claim_C5_witness :
    ((-3:ℤ) < 0 ∧ (1:ℤ) ≤ 1 ∧ (-1:ℤ) < 0 ∧ (0:ℤ) ≤ 16) ∧
    grid_method ⟨[((0:ℚ), (0:ℚ)), (4, 0), (2, 3)]⟩ 0 16 (fun _ => (0, 0))
      = GridOutcome.errBeforeLoop :=
  ⟨⟨by omega, by omega, by omega, by omega⟩,
   (claim_C5_amended ⟨[((0:ℚ), (0:ℚ)), (4, 0), (2, 3)]⟩ (fun _ => (0, 0))
      (fun _ => (0, 0)) 16 (-3) 1 (-1) (by omega) (by omega) (by omega)
      (by omega)).1⟩

/-- When the exact area is zero, the error-percentage division raises and the
exception propagates out of `compare_methods` (no value is returned). -/
theorem compare_methods_zero_area (p : Polygon) (res s n : ℤ)
    (jitter rng : ℕ → ℚ × ℚ) (hzero : analytical_area p = 0) :
    compare_methods p res s n jitter rng = none := by
  cases hg : grid_method p res s jitter with
  | ok g => simp [compare_methods, hg, hzero]
  | errBeforeLoop => simp [compare_methods, hg]
  | errInLoop k => simp [compare_methods, hg]

/-- Counterexample to C6 as stated: on the zero-area collinear polygon
`(0,0),(1,1),(2,2)` the comparison layer does not report the relative error
as "undefined" — the division by the zero exact area raises and the failure
reaches the caller (modelled as `none`). -/
theorem claim_C6_counterexample :
    analytical_area ⟨[((0:ℚ), (0:ℚ)), (1, 1), (2, 2)]⟩ = 0 ∧
    compare_methods ⟨[((0:ℚ), (0:ℚ)), (1, 1), (2, 2)]⟩ 1 1 1
      (fun _ => (0, 0)) (fun _ => (0, 0)) = none := by
  have h0 : analytical_area ⟨[((0:ℚ), (0:ℚ)), (1, 1), (2, 2)]⟩ = 0 := by
    norm_num [analytical_area, shoelace_loop, List.getLast]
  exact ⟨h0, compare_methods_zero_area ⟨[((0:ℚ), (0:ℚ)), (1, 1), (2, 2)]⟩ 1 1 1
    (fun _ => (0, 0)) (fun _ => (0, 0)) h0⟩

/-- Claim C6 (amended): for every polygon whose exact area is zero,
`compare_methods` fails with an uncaught division-by-zero at the
error-percentage computation (no "undefined" report exists in the code). -/
theorem claim_C6_relative_error (p : Polygon) (res s n : ℤ)
    (jitter rng : ℕ → ℚ × ℚ) (hzero : analytical_area p = 0) :
    compare_methods p res s n jitter rng = none :=
  compare_methods_zero_area p res s n jitter rng hzero

/-- Witness for the amended C6 on a second collinear polygon. -/
theorem claim_C6_witness :
    analytical_area ⟨[((0:ℚ), (0:ℚ)), (3, 3), (6, 6)]⟩ = 0 ∧
    compare_methods ⟨[((0:ℚ), (0:ℚ)), (3, 3), (6, 6)]⟩ 2 4 5
      (fun _ => (0, 0)) (fun _ => (0, 0)) = none := by
  have h0 : analytical_area ⟨[((0:ℚ), (0:ℚ)), (3, 3), (6, 6)]⟩ = 0 := by
    norm_num [analytical_area, shoelace_loop, List.getLast]
  exact ⟨h0, claim_C6_relative_error ⟨[((0:ℚ), (0:ℚ)), (3, 3), (6, 6)]⟩ 2 4 5
    (fun _ => (0, 0)) (fun _ => (0, 0)) h0⟩

/-- Claim C8: an edge with `yi == yj` never satisfies the crossing condition
(horizontal edges are skipped), and whenever the first conjunct of the
crossing condition holds the denominator `yj - yi` of the x-intersection
formula is nonzero, so the division is never evaluated with a zero
denominator; the predicate is a total function of its inputs. -/
theorem claim_C8_horizontal_edges (x y xi yi xj yj : ℚ) :
    (yi = yj → edge_crosses x y xi yi xj yj = false) ∧
    ((decide (yi > y) != decide (yj > y)) = true → yj - yi ≠ 0) := by
  constructor
  · intro h
    subst h
    simp [edge_crosses]
  · intro h hzero
    have hyy : yj = yi := sub_eq_zero.mp hzero
    subst hyy
    simp at h

/-- Witness for C8: a horizontal edge is skipped, and a crossing edge has a
nonzero denominator. -/
theorem claim_C8_witness :
    edge_crosses 0 0 0 0 1 0 = false ∧ (1:ℚ) - 0 ≠ 0 :=
  ⟨(claim_C8_horizontal_edges 0 0 0 0 1 0).1 rfl,
   (claim_C8_horizontal_edges 0 0 0 0 1 1).2 (by norm_num)⟩

/-- Claim C9: for the square `(0,0),(4,0),(4,4),(0,4)` the predicate
classifies `(2,2)` inside and `(5,5)` outside, and for every polygon every
cyclic rotation of the vertex list yields the identical classification as
the original for every query point. -/
theorem claim_C9_inclusion_sanity :
    point_in_polygon_ray_casting ⟨[((0:ℚ), (0:ℚ)), (4, 0), (4, 4), (0, 4)]⟩ 2 2
      = true ∧
    point_in_polygon_ray_casting ⟨[((0:ℚ), (0:ℚ)), (4, 0), (4, 4), (0, 4)]⟩ 5 5
      = false ∧
    ∀ (coords : List (ℚ × ℚ)) (k : ℕ) (x y : ℚ),
      point_in_polygon_ray_casting ⟨coords.rotate k⟩ x y
        = point_in_polygon_ray_casting ⟨coords⟩ x y :=
  ⟨by norm_num [point_in_polygon_ray_casting, ray_loop, edge_crosses, List.getLast],
   by norm_num [point_in_polygon_ray_casting, ray_loop, edge_crosses, List.getLast],
   fun coords k x y => point_in_polygon_rotate coords k x y⟩

/-- Counterexample to C7 as stated: with identical parameters, the grid
result record for the degenerate-bounding-box polygon `(0,0),(1,0),(2,0)`
(zero height) is identical to the record for the polygon `(0,0),(2,2),(0,0)`
whose bounding box is nondegenerate — so the returned diagnostics cannot
flag the degenerate-bounding-box condition. -/
theorem claim_C7_counterexample :
    grid_method ⟨[((0:ℚ), (0:ℚ)), (1, 0), (2, 0)]⟩ 1 1 (fun _ => (0, 0))
      = grid_method ⟨[((0:ℚ), (0:ℚ)), (2, 2), (0, 0)]⟩ 1 1 (fun _ => (0, 0)) ∧
    Polygon.bbox_height ⟨[((0:ℚ), (0:ℚ)), (1, 0), (2, 0)]⟩ = 0 ∧
    ¬(Polygon.bbox_width ⟨[((0:ℚ), (0:ℚ)), (2, 2), (0, 0)]⟩ = 0 ∨
      Polygon.bbox_height ⟨[((0:ℚ), (0:ℚ)), (2, 2), (0, 0)]⟩ = 0) := by
  refine ⟨?_, ?_, ?_⟩
  · norm_num [grid_method, grid_cells, sample_coords, process_cells, cell_step,
      cell_inside_count, point_in_polygon_ray_casting, ray_loop, edge_crosses,
      List.getLast, Polygon.bbox_width, Polygon.bbox_height, Polygon.min_x,
      Polygon.max_x, Polygon.min_y, Polygon.max_y, listMin, listMax,
      List.countP, List.countP.go]
  · norm_num [Polygon.bbox_height, Polygon.min_y, Polygon.max_y, listMin, listMax]
  · norm_num [Polygon.bbox_width, Polygon.bbox_height, Polygon.min_x,
      Polygon.max_x, Polygon.min_y, Polygon.max_y, listMin, listMax]

/-- Claim C7 (amended): for every polygon whose bounding box has zero width
or zero height, `grid_method` (with valid parameters) and
`monte_carlo_method` (with `n_samples ≥ 1`) both return normally with a
zero area estimate and no division-by-zero failure; however the returned
diagnostics carry no flag for the degenerate-bounding-box condition (see the
counterexample: the records coincide with those of a nondegenerate input). -/
theorem claim_C7_degenerate_bbox (p : Polygon) (res s n : ℤ)
    (jitter rng : ℕ → ℚ × ℚ) (hdeg : p.bbox_width = 0 ∨ p.bbox_height = 0)
    (hres : 1 ≤ res) (hs : 1 ≤ s) (hn : 1 ≤ n) :
    (grid_method p res s jitter).isOk = true ∧
    (grid_method p res s jitter).area = 0 ∧
    (monte_carlo_method p n rng).isOk = true ∧
    (monte_carlo_method p n rng).area = 0 := by
  refine ⟨?_, grid_method_degenerate p res s jitter hdeg hres hs, ?_,
    monte_carlo_method_degenerate p n rng hdeg (by omega)⟩
  · rw [grid_method_ok p res s jitter hres hs]
    rfl
  · rw [monte_carlo_method_ok p n rng (by omega)]
    rfl

/-- Witness for the amended C7 on the axis-collinear polygon
`(0,0),(1,0),(2,0)`. -/
theorem claim_C7_witness :
    (Polygon.bbox_width ⟨[((0:ℚ), (0:ℚ)), (1, 0), (2, 0)]⟩ = 0 ∨
      Polygon.bbox_height ⟨[((0:ℚ), (0:ℚ)), (1, 0), (2, 0)]⟩ = 0) ∧
    (grid_method ⟨[((0:ℚ), (0:ℚ)), (1, 0), (2, 0)]⟩ 1 1 (fun _ => (0, 0))).area
      = 0 ∧
    (monte_carlo_method ⟨[((0:ℚ), (0:ℚ)), (1, 0), (2, 0)]⟩ 1 (fun _ => (0, 0))).area
      = 0 := by
  have hdeg : Polygon.bbox_width ⟨[((0:ℚ), (0:ℚ)), (1, 0), (2, 0)]⟩ = 0 ∨
      Polygon.bbox_height ⟨[((0:ℚ), (0:ℚ)), (1, 0), (2, 0)]⟩ = 0 := by
    right
    norm_num [Polygon.bbox_height, Polygon.min_y, Polygon.max_y, listMin, listMax]
  have h := claim_C7_degenerate_bbox ⟨[((0:ℚ), (0:ℚ)), (1, 0), (2, 0)]⟩ 1 1 1
    (fun _ => (0, 0)) (fun _ => (0, 0)) hdeg (by omega) (by omega) (by omega)
  exact ⟨hdeg, h.2.1, h.2.2.2⟩

/-- Claim C10: for every polygon with a nonempty vertex list (valid bounding
box) and valid parameters, the grid and Monte Carlo area estimates lie in
`[0, bbox_area]`: every per-cell coverage fraction and the inside fraction
lie in `[0, 1]`, and the cell areas sum to the bounding-box area. -/
theorem claim_C10_estimates_bounded (p : Polygon) (res s n : ℤ)
    (jitter rng : ℕ → ℚ × ℚ) (hne : p.coordinates ≠ [])
    (hres : 1 ≤ res) (hs : 1 ≤ s) (hn : 1 ≤ n) :
    0 ≤ (grid_method p res s jitter).area ∧
    (grid_method p res s jitter).area ≤ p.bbox_area ∧
    0 ≤ (monte_carlo_method p n rng).area ∧
    (monte_carlo_method p n rng).area ≤ p.bbox_area := by
  have hw := bbox_width_nonneg p hne
  have hh := bbox_height_nonneg p hne
  have hba := bbox_area_nonneg p hne
  have hresQ : (0:ℚ) < (res : ℚ) := by
    have h0 : (0:ℤ) < res := by omega
    exact_mod_cast h0
  have hca : 0 ≤ p.bbox_width / (res : ℚ) * (p.bbox_height / (res : ℚ)) := by
    positivity
  have hLpos : 0 < ((sample_coords (Nat.sqrt s.toNat) jitter).length : ℚ) := by
    rw [sample_coords_length]
    have h1 : 0 < Nat.sqrt s.toNat := Nat.sqrt_pos.mpr (by omega)
    exact_mod_cast Nat.mul_pos h1 h1
  have hterm : ∀ c : ℕ × ℕ,
      0 ≤ (cell_inside_count p (p.bbox_width / (res : ℚ))
            (p.bbox_height / (res : ℚ)) (sample_coords (Nat.sqrt s.toNat) jitter) c : ℚ) /
          ((sample_coords (Nat.sqrt s.toNat) jitter).length : ℚ) *
          (p.bbox_width / (res : ℚ) * (p.bbox_height / (res : ℚ))) ∧
      (cell_inside_count p (p.bbox_width / (res : ℚ))
            (p.bbox_height / (res : ℚ)) (sample_coords (Nat.sqrt s.toNat) jitter) c : ℚ) /
          ((sample_coords (Nat.sqrt s.toNat) jitter).length : ℚ) *
          (p.bbox_width / (res : ℚ) * (p.bbox_height / (res : ℚ)))
        ≤ p.bbox_width / (res : ℚ) * (p.bbox_height / (res : ℚ)) := by
    intro c
    have hcnt : cell_inside_count p (p.bbox_width / (res : ℚ))
        (p.bbox_height / (res : ℚ)) (sample_coords (Nat.sqrt s.toNat) jitter) c
        ≤ (sample_coords (Nat.sqrt s.toNat) jitter).length :=
      List.countP_le_length _
    have hfrac : (cell_inside_count p (p.bbox_width / (res : ℚ))
          (p.bbox_height / (res : ℚ)) (sample_coords (Nat.sqrt s.toNat) jitter) c : ℚ) /
          ((sample_coords (Nat.sqrt s.toNat) jitter).length : ℚ) ≤ 1 :=
      (div_le_one hLpos).mpr (by exact_mod_cast hcnt)
    exact ⟨by positivity, mul_le_of_le_one_left hca hfrac⟩
  refine ⟨?_, ?_, ?_, ?_⟩
  · rw [grid_method_ok p res s jitter hres hs]
    simp only [GridOutcome.area]
    refine sum_nonneg_of_mem _ (fun x hx => ?_)
    obtain ⟨c, _, rfl⟩ := List.mem_map.mp hx
    exact (hterm c).1
  · rw [grid_method_ok p res s jitter hres hs]
    simp only [GridOutcome.area]
    have hsum := sum_le_length_mul
      (p.bbox_width / (res : ℚ) * (p.bbox_height / (res : ℚ)))
      ((grid_cells res.toNat).map (fun c =>
        (cell_inside_count p (p.bbox_width / (res : ℚ))
            (p.bbox_height / (res : ℚ)) (sample_coords (Nat.sqrt s.toNat) jitter) c : ℚ) /
          ((sample_coords (Nat.sqrt s.toNat) jitter).length : ℚ) *
          (p.bbox_width / (res : ℚ) * (p.bbox_height / (res : ℚ)))))
      (fun x hx => by
        obtain ⟨c, _, rfl⟩ := List.mem_map.mp hx
        exact (hterm c).2)
    refine le_trans hsum (le_of_eq ?_)
    rw [List.length_map, grid_cells_length]
    have hres' : ((res.toNat : ℕ) : ℚ) = (res : ℚ) := by
      have h1 : (res.toNat : ℤ) = res := Int.toNat_of_nonneg (by omega)
      exact_mod_cast congrArg (fun z : ℤ => (z : ℚ)) h1
    have hresne : (res : ℚ) ≠ 0 := ne_of_gt hresQ
    push_cast
    rw [hres', Polygon.bbox_area]
    field_simp
  · rw [monte_carlo_method_ok p n rng (by omega)]
    simp only [MCOutcome.area]
    have hnQ : (0:ℚ) ≤ (n : ℚ) := by
      have h0 : (0:ℤ) ≤ n := by omega
      exact_mod_cast h0
    exact mul_nonneg (div_nonneg (by positivity) hnQ) hba
  · rw [monte_carlo_method_ok p n rng (by omega)]
    simp only [MCOutcome.area]
    have hnQ : (0:ℚ) < (n : ℚ) := by
      have h0 : (0:ℤ) < n := by omega
      exact_mod_cast h0
    have hcnt : ((List.range n.toNat).countP (fun k =>
        point_in_polygon_ray_casting p (rng k).1 (rng k).2) : ℚ) ≤ (n : ℚ) := by
      have h1 : (List.range n.toNat).countP (fun k =>
          point_in_polygon_ray_casting p (rng k).1 (rng k).2) ≤ n.toNat :=
        le_trans (List.countP_le_length _) (le_of_eq (List.length_range _))
      have h2 : ((n.toNat : ℤ) : ℚ) = (n : ℚ) := by
        exact_mod_cast congrArg (fun z : ℤ => (z : ℚ)) (Int.toNat_of_nonneg (by omega : (0:ℤ) ≤ n))
      calc ((List.range n.toNat).countP (fun k =>
              point_in_polygon_ray_casting p (rng k).1 (rng k).2) : ℚ)
          ≤ (n.toNat : ℚ) := by exact_mod_cast h1
        _ = (n : ℚ) := by exact_mod_cast h2
    exact mul_le_of_le_one_left hba ((div_le_one hnQ).mpr hcnt)

/-- Witness for C10 on the triangle `(0,0),(4,0),(2,3)` with unit
parameters. -/
theorem claim_C10_witness :
    ((Polygon.mk [((0:ℚ), (0:ℚ)), (4, 0), (2, 3)]).coordinates ≠ [] ∧ (1:ℤ) ≤ 1) ∧
    0 ≤ (grid_method ⟨[((0:ℚ), (0:ℚ)), (4, 0), (2, 3)]⟩ 1 1 (fun _ => (0, 0))).area ∧
    (grid_method ⟨[((0:ℚ), (0:ℚ)), (4, 0), (2, 3)]⟩ 1 1 (fun _ => (0, 0))).area
      ≤ Polygon.bbox_area ⟨[((0:ℚ), (0:ℚ)), (4, 0), (2, 3)]⟩ ∧
    0 ≤ (monte_carlo_method ⟨[((0:ℚ), (0:ℚ)), (4, 0), (2, 3)]⟩ 1
      (fun _ => (2, 3/2))).area ∧
    (monte_carlo_method ⟨[((0:ℚ), (0:ℚ)), (4, 0), (2, 3)]⟩ 1
      (fun _ => (2, 3/2))).area ≤ Polygon.bbox_area ⟨[((0:ℚ), (0:ℚ)), (4, 0), (2, 3)]⟩ :=
  ⟨⟨by simp, by omega⟩,
   claim_C10_estimates_bounded ⟨[((0:ℚ), (0:ℚ)), (4, 0), (2, 3)]⟩ 1 1 1
     (fun _ => (0, 0)) (fun _ => (2, 3/2)) (by simp) (by omega) (by omega) (by omega)⟩
